import Mathlib

/-
Verification of the meme-bot media relay core (src/src/app.ts and the
file-backed variant in src/unnamed/part_001).

The TypeScript source is shallowly embedded: module-level mutable maps
(userLastSent, mediaGroupBuffer, groupTimeouts, the data.json contents)
become explicit association lists threaded through pure functions, times
are Nat milliseconds, and the external transport outcome of a send is an
explicit parameter.  JavaScript truthiness quirks that the source relies
on (a 0 timestamp, an empty caption string, an empty description string
being falsy) are modelled explicitly.
-/

set_option autoImplicit false

/-- JavaScript expression (x || undefined) on an optional string: an absent
or empty string collapses to undefined.  Used for (message.caption || undefined)
in app.ts. -/
def jsOrUndef (c : Option String) : Option String :=
  match c with
  | some s => if s.isEmpty then none else some s
  | none => none

/-- JavaScript expression (x || d) on an optional string with a string
default: an absent or empty string falls back to the default.  Used for
(e.description || "Unknown error") in the catch blocks. -/
def jsOrDefault (c : Option String) (d : String) : String :=
  match c with
  | some s => if s.isEmpty then d else s
  | none => d

/-- JavaScript String.includes: pat occurs as a contiguous substring of s. -/
def containsSub (s pat : String) : Bool :=
  (List.range (s.length + 1)).any (fun i => List.isPrefixOf pat.data (s.data.drop i))

/-- The error classification (e.description?.includes("chat not found")) used
by every catch block in app.ts; an absent description is falsy. -/
def isChatNotFound (desc : Option String) : Bool :=
  match desc with
  | some d => containsSub d "chat not found"
  | none => false

/-- Lookup in a JavaScript Map modelled as an association list
(first matching key wins; a Map never holds duplicate keys). -/
def mapGet {α β : Type} [BEq α] (m : List (α × β)) (k : α) : Option β :=
  match m with
  | [] => none
  | p :: ps => if p.fst == k then some p.snd else mapGet ps k

/-- JavaScript Map.set: overwrite the entry for the key if present
(first occurrence), otherwise append a fresh entry at the end. -/
def mapSet {α β : Type} [BEq α] (m : List (α × β)) (k : α) (v : β) : List (α × β) :=
  match m with
  | [] => [(k, v)]
  | p :: ps => if p.fst == k then (k, v) :: ps else p :: mapSet ps k v

theorem mapGet_set_self {α β : Type} [BEq α] [LawfulBEq α]
    (m : List (α × β)) (k : α) (v : β) : mapGet (mapSet m k v) k = some v := by
  induction m with
  | nil => simp [mapGet, mapSet]
  | cons p ps ih =>
    by_cases h : p.fst == k
    · simp [mapGet, mapSet, h]
    · simp [mapGet, mapSet, h, ih]

theorem mapGet_set_ne {α β : Type} [BEq α] [LawfulBEq α]
    (m : List (α × β)) (k j : α) (v : β) (h : j ≠ k) :
    mapGet (mapSet m k v) j = mapGet m j := by
  induction m with
  | nil =>
    have hk : (k == j) = false := by
      simp [beq_eq_false_iff_ne]
      exact fun he => h he.symm
    simp [mapGet, mapSet, hk]
  | cons p ps ih =>
    by_cases hp : p.fst == k
    · have hpk : p.fst = k := eq_of_beq hp
      have hk : (k == j) = false := by
        simp [beq_eq_false_iff_ne]
        exact fun he => h he.symm
      have hpj : (p.fst == j) = false := by
        simp [beq_eq_false_iff_ne, hpk]
        exact fun he => h he.symm
      simp [mapGet, mapSet, hp, hk, hpj]
    · simp [mapGet, mapSet, hp, ih]

/-- The wait computed by applyDelay (app.ts lines 236-247) before the final
Map.set: read userLastSent, and when a truthy prior timestamp exists whose
elapsed distance to now is below the configured interval, wait out the
deficit.  A timestamp of 0 is falsy in JavaScript and is ignored. -/
def waitOf (delayMs : Nat) (rate : List (Nat × Nat)) (userId now : Nat) : Nat :=
  match mapGet rate userId with
  | some lastSent =>
    if lastSent ≠ 0 then
      let elapsed : Int := (now : Int) - (lastSent : Int)
      if elapsed < (delayMs : Int) then ((delayMs : Int) - elapsed).toNat else 0
    else 0
  | none => 0

/-- applyDelay (app.ts lines 236-249): returns the suspension length and the
updated userLastSent map.  The write happens after the wait, so the recorded
timestamp is now + waitTime (the value Date.now() evaluates to then). -/
def applyDelay (delayMs : Nat) (rate : List (Nat × Nat)) (userId now : Nat) :
    Nat × List (Nat × Nat) :=
  (waitOf delayMs rate userId now,
    mapSet rate userId (now + waitOf delayMs rate userId now))

/-- Claim C2: applyDelay returns without suspending when the sender has no
recorded timestamp; when a recorded (positive) timestamp T exists and the
call happens at T + d with d below the configured interval, it suspends for
the deficit interval - d; and in every case its final side effect records
the current time (now plus the wait) as the new timestamp of the sender. -/
theorem applyDelay_contract (delayMs : Nat) (rate : List (Nat × Nat)) (S now : Nat) :
    (mapGet rate S = none →
      (applyDelay delayMs rate S now).fst = 0 ∧
      mapGet (applyDelay delayMs rate S now).snd S = some now) ∧
    (∀ T d, mapGet rate S = some T → 0 < T → now = T + d → d < delayMs →
      (applyDelay delayMs rate S now).fst = delayMs - d ∧
      mapGet (applyDelay delayMs rate S now).snd S = some (T + delayMs)) ∧
    mapGet (applyDelay delayMs rate S now).snd S =
      some (now + (applyDelay delayMs rate S now).fst) := by
  refine ⟨?_, ?_, ?_⟩
  · intro h
    have hw : waitOf delayMs rate S now = 0 := by simp [waitOf, h]
    constructor
    · simp [applyDelay, hw]
    · simp [applyDelay, hw, mapGet_set_self]
  · intro T d hT hTpos hnow hd
    subst hnow
    have hTne : T ≠ 0 := Nat.pos_iff_ne_zero.mp hTpos
    have hw : waitOf delayMs rate S (T + d) = delayMs - d := by
      simp only [waitOf, hT]
      rw [if_pos hTne]
      have helap : ((T + d : Nat) : Int) - (T : Int) = (d : Int) := by push_cast; ring
      rw [helap, if_pos (by exact_mod_cast hd)]
      omega
    constructor
    · simp [applyDelay, hw]
    · simp only [applyDelay, mapGet_set_self, hw]
      congr 1
      omega
  · simp [applyDelay, mapGet_set_self]

theorem applyDelay_contract_witness :
    ((applyDelay 500 [] 3 42).fst = 0 ∧
      mapGet (applyDelay 500 [] 3 42).snd 3 = some 42) ∧
    ((applyDelay 500 [(3, 1000)] 3 1100).fst = 400 ∧
      mapGet (applyDelay 500 [(3, 1000)] 3 1100).snd 3 = some 1500) := by
  refine ⟨?_, ?_⟩
  · exact (applyDelay_contract 500 [] 3 42).1 rfl
  · exact (applyDelay_contract 500 [(3, 1000)] 3 1100).2.1 1000 100 rfl
      (by decide) rfl (by decide)

/-- Media kinds that can appear in an outgoing batched send
(sendMediaGroup builds only photo and video entries). -/
inductive MediaKind
  | photo
  | video
deriving DecidableEq, Repr

/-- One entry of the outgoing batch: the object pushed onto mediaItems in
sendMediaGroup (app.ts lines 263-279): a kind, the transport content
reference (file_id), and the caption after JavaScript (caption || undefined). -/
structure MediaItem where
  type : MediaKind
  media : String
  caption : Option String
deriving DecidableEq, Repr

/-- Projection of an inbound Telegram message to the fields the core reads:
the photo size-variant file_id list, the video, document and audio file_id,
the caption, and the transient album key media_group_id.  A field is none
when absent (undefined). -/
structure TgMessage where
  photo : Option (List String)
  video : Option String
  document : Option String
  audio : Option String
  caption : Option String
  media_group_id : Option String
deriving DecidableEq, Repr

/-- The per-message body of the projection loop in sendMediaGroup (app.ts
lines 263-279): a message with a (truthy) photo field contributes a photo
item built from the last size variant, otherwise a message with a video
field contributes a video item, otherwise nothing is pushed.  The source
would raise a TypeError on a present-but-empty photo array (it indexes
photo[photo.length - 1] unconditionally); the transport never delivers an
empty size list, and the embedding skips such an item. -/
def projectMsg (m : TgMessage) : Option MediaItem :=
  match m.photo with
  | some sizes =>
    match sizes.getLast? with
    | some fid => some { type := MediaKind.photo, media := fid, caption := jsOrUndef m.caption }
    | none => none
  | none =>
    match m.video with
    | some fid => some { type := MediaKind.video, media := fid, caption := jsOrUndef m.caption }
    | none => none

/-- The whole projection loop of sendMediaGroup: buffered messages to the
ordered mediaItems batch. -/
def projectBatch (msgs : List TgMessage) : List MediaItem :=
  msgs.filterMap projectMsg

/-- The media-group branch of the photo and video handlers (app.ts lines
893-897 and 975-979): create an empty buffer for an unseen key, then push
the message at the end. -/
def bufferGroupItem (buf : Option (List TgMessage)) (m : TgMessage) : List TgMessage :=
  buf.getD [] ++ [m]

/-- The buffer contents after a sequence of grouped arrivals for one key,
starting from an absent entry. -/
def bufferAll (msgs : List TgMessage) : Option (List TgMessage) :=
  msgs.foldl (fun buf m => some (bufferGroupItem buf m)) none

/-- A message that the group branch can actually buffer without the source
crashing: a photo with a nonempty size list, or no photo and a video. -/
def groupMediaOk (m : TgMessage) : Bool :=
  match m.photo with
  | some sizes => !sizes.isEmpty
  | none => m.video.isSome

/-- The batch entry a wellformed grouped message projects to. -/
def groupItemOf (m : TgMessage) : MediaItem :=
  match m.photo with
  | some sizes =>
    { type := MediaKind.photo, media := sizes.getLastD "", caption := jsOrUndef m.caption }
  | none =>
    { type := MediaKind.video, media := m.video.getD "", caption := jsOrUndef m.caption }

theorem bufferAll_from (msgs : List TgMessage) (acc : List TgMessage) :
    msgs.foldl (fun buf m => some (bufferGroupItem buf m)) (some acc) = some (acc ++ msgs) := by
  induction msgs generalizing acc with
  | nil => simp
  | cons m rest ih =>
    simp only [List.foldl_cons]
    have hstep : bufferGroupItem (some acc) m = acc ++ [m] := rfl
    rw [hstep, ih]
    simp

theorem getLast?_cons (s : String) (ss : List String) :
    (s :: ss).getLast? = some ((s :: ss).getLastD "") := by
  induction ss generalizing s with
  | nil => rfl
  | cons t ts ih =>
    simp only [List.getLast?, List.getLastD] at ih ⊢

theorem projectMsg_of_ok (m : TgMessage) (h : groupMediaOk m = true) :
    projectMsg m = some (groupItemOf m) := by
  cases hp : m.photo with
  | some sizes =>
    cases sizes with
    | nil => simp [groupMediaOk, hp] at h
    | cons s ss => simp only [projectMsg, groupItemOf, hp, getLast?_cons]
  | none =>
    cases hv : m.video with
    | some fid => simp only [projectMsg, groupItemOf, hp, hv, Option.getD_some]
    | none => simp [groupMediaOk, hp, hv] at h

/-- Claim C4: grouped items arriving for one key within the quiet period are
appended in arrival order, and the projection to (kind, content reference,
caption) batch entries preserves that order exactly: the buffer equals the
arrival list, and the batch is its elementwise image. -/
theorem group_order_preserved (msgs : List TgMessage)
    (h : ∀ m ∈ msgs, groupMediaOk m = true) :
    bufferAll msgs = (if msgs.isEmpty then none else some msgs) ∧
    projectBatch msgs = msgs.map groupItemOf := by
  constructor
  · cases msgs with
    | nil => rfl
    | cons m rest =>
      simp only [bufferAll, List.foldl_cons, List.isEmpty_cons, if_neg Bool.false_ne_true]
      rw [bufferAll_from]
      rfl
  · induction msgs with
    | nil => rfl
    | cons m rest ih =>
      have hm := h m (List.mem_cons_self m rest)
      have hrest := ih (fun x hx => h x (List.mem_cons_of_mem m hx))
      simp [projectBatch, List.filterMap_cons, projectMsg_of_ok m hm] at hrest ⊢
      exact hrest

theorem group_order_preserved_witness :
    bufferAll
      [{ photo := some ["p1a", "p1b"], video := none, document := none, audio := none,
         caption := some "first", media_group_id := some "g1" },
       { photo := none, video := some "v2", document := none, audio := none,
         caption := none, media_group_id := some "g1" }] =
      some
        [{ photo := some ["p1a", "p1b"], video := none, document := none, audio := none,
           caption := some "first", media_group_id := some "g1" },
         { photo := none, video := some "v2", document := none, audio := none,
           caption := none, media_group_id := some "g1" }] ∧
    projectBatch
      [{ photo := some ["p1a", "p1b"], video := none, document := none, audio := none,
         caption := some "first", media_group_id := some "g1" },
       { photo := none, video := some "v2", document := none, audio := none,
         caption := none, media_group_id := some "g1" }] =
      [{ type := MediaKind.photo, media := "p1b", caption := some "first" },
       { type := MediaKind.video, media := "v2", caption := none }] := by
  have h := group_order_preserved
    [{ photo := some ["p1a", "p1b"], video := none, document := none, audio := none,
       caption := some "first", media_group_id := some "g1" },
     { photo := none, video := some "v2", document := none, audio := none,
       caption := none, media_group_id := some "g1" }]
    (by decide)
  exact ⟨h.1.trans (by decide), h.2.trans (by decide)⟩

/-- Outcome of the single external send attempt, supplied by the transport:
success, or a failure carrying the error description (e.description). -/
inductive SendOutcome
  | ok
  | fail (description : Option String)
deriving DecidableEq, Repr

/-- User-facing replies the core can emit, one constructor per distinct
reply site in app.ts. -/
inductive Reply
  /-- The OFFLINE notice sent when botEnabled is false. -/
  | offline
  /-- The (kind) message is undefined error reply. -/
  | noMessage (kind : String)
  /-- No target configured reply. -/
  | noTarget
  /-- The remediation reply of the chat-not-found branch: the recipient must
  start the bot first. -/
  | chatNotFoundHelp
  /-- The generic failure reply: Failed to forward (what). Error: (detail). -/
  | forwardError (what : String) (detail : String)
deriving DecidableEq, Repr

/-- Result of one complete, non-interleaved run of sendMediaGroup (app.ts
lines 252-320) for one group key: the external batched sends attempted, the
replies emitted, the post-state of that key in mediaGroupBuffer, and the
post-state of userLastSent.  The matching groupTimeouts.delete of the
cleanup is not tracked here (the timer map is modelled separately). -/
structure FlushResult where
  sends : List (List MediaItem)
  replies : List Reply
  buffer : Option (List TgMessage)
  rate : List (Nat × Nat)
deriving DecidableEq, Repr

/-- sendMediaGroup run to completion with the transport outcome given as a
parameter.  Mirrors the source order: early return on a missing or empty
buffer entry (which then stays in the map, since the cleanup lines are
skipped by the return); projection; if the projected batch is nonempty,
applyDelay then the send, with the catch branching on chat not found; the
cleanup (buffer delete) runs after the try/catch in every non-returned
path. -/
def sendMediaGroupRun (delayMs : Nat) (rate : List (Nat × Nat)) (userId now : Nat)
    (buffer : Option (List TgMessage)) (outcome : SendOutcome) : FlushResult :=
  match buffer with
  | none => { sends := [], replies := [], buffer := none, rate := rate }
  | some msgs =>
    if msgs.isEmpty then { sends := [], replies := [], buffer := some msgs, rate := rate }
    else
      let mediaItems := projectBatch msgs
      if mediaItems.isEmpty then
        { sends := [], replies := [], buffer := none, rate := rate }
      else
        let rate2 := (applyDelay delayMs rate userId now).snd
        match outcome with
        | SendOutcome.ok =>
          { sends := [mediaItems], replies := [], buffer := none, rate := rate2 }
        | SendOutcome.fail desc =>
          { sends := [mediaItems],
            replies := [if isChatNotFound desc then Reply.chatNotFoundHelp
                        else Reply.forwardError "media group" (jsOrDefault desc "Unknown error")],
            buffer := none, rate := rate2 }

/-- Claim C7: a flush whose buffered messages project to an empty batch
performs no external send and emits no reply, whatever the transport would
have answered; and the projection only ever produces photo or video
entries. -/
theorem empty_batch_silent (delayMs : Nat) (rate : List (Nat × Nat)) (userId now : Nat)
    (msgs : List TgMessage) (outcome : SendOutcome)
    (h : projectBatch msgs = []) :
    (sendMediaGroupRun delayMs rate userId now (some msgs) outcome).sends = [] ∧
    (sendMediaGroupRun delayMs rate userId now (some msgs) outcome).replies = [] ∧
    ∀ (l : List TgMessage) (it : MediaItem), it ∈ projectBatch l →
      it.type = MediaKind.photo ∨ it.type = MediaKind.video := by
  have hkinds : ∀ (l : List TgMessage) (it : MediaItem), it ∈ projectBatch l →
      it.type = MediaKind.photo ∨ it.type = MediaKind.video := by
    intro l it hit
    rcases List.mem_filterMap.mp hit with ⟨m, _, hm⟩
    unfold projectMsg at hm
    cases hp : m.photo with
    | some sizes =>
      simp only [hp] at hm
      cases hg : sizes.getLast? with
      | some fid =>
        simp only [hg] at hm
        injection hm with h2
        subst h2
        left
        rfl
      | none => simp only [hg] at hm; exact Option.noConfusion hm
    | none =>
      simp only [hp] at hm
      cases hv : m.video with
      | some fid =>
        simp only [hv] at hm
        injection hm with h2
        subst h2
        right
        rfl
      | none => simp only [hv] at hm; exact Option.noConfusion hm
  cases msgs with
  | nil => exact ⟨rfl, rfl, hkinds⟩
  | cons m rest =>
    have hempty : (projectBatch (m :: rest)).isEmpty = true := by
      rw [h]; rfl
    constructor
    · simp [sendMediaGroupRun, hempty]
    · constructor
      · simp [sendMediaGroupRun, hempty]
      · exact hkinds

theorem empty_batch_silent_witness :
    (sendMediaGroupRun 500 [(7, 100)] 7 1000
        (some [{ photo := none, video := none, document := some "d1", audio := none,
                 caption := none, media_group_id := none }])
        (SendOutcome.fail (some "chat not found"))).sends = [] ∧
    (sendMediaGroupRun 500 [(7, 100)] 7 1000
        (some [{ photo := none, video := none, document := some "d1", audio := none,
                 caption := none, media_group_id := none }])
        (SendOutcome.fail (some "chat not found"))).replies = [] := by
  have h := empty_batch_silent 500 [(7, 100)] 7 1000
    [{ photo := none, video := none, document := some "d1", audio := none,
       caption := none, media_group_id := none }]
    (SendOutcome.fail (some "chat not found")) (by decide)
  exact ⟨h.1, h.2.1⟩

/-- Position of one in-flight sendMediaGroup invocation with respect to its
suspension points.  start covers the synchronous part of app.ts lines
258-281 (reading the buffer, the early returns, the projection); atDelay is
the invocation suspended inside await applyDelay (line 287); atSend is the
invocation suspended inside await ctx.telegram.sendMediaGroup (line 290),
the send having been initiated; done is after the cleanup (lines 318-319)
or after an early return. -/
inductive FlushPhase
  | start
  | atDelay (items : List MediaItem)
  | atSend (items : List MediaItem)
  | done
deriving DecidableEq, Repr

/-- One task step of a sendMediaGroup invocation under the cooperative
model: run from the current suspension point to the next one.  The buffer
read happens at start; the external send is counted when it is initiated
(entering atSend); the buffer entry is deleted only in the final segment,
after the send returns. -/
def flushStep (p : FlushPhase) (buffer : Option (List TgMessage))
    (sends : List (List MediaItem)) :
    FlushPhase × Option (List TgMessage) × List (List MediaItem) :=
  match p with
  | FlushPhase.start =>
    match buffer with
    | none => (FlushPhase.done, none, sends)
    | some msgs =>
      if msgs.isEmpty then (FlushPhase.done, some msgs, sends)
      else
        let items := projectBatch msgs
        if items.isEmpty then (FlushPhase.done, none, sends)
        else (FlushPhase.atDelay items, some msgs, sends)
  | FlushPhase.atDelay items => (FlushPhase.atSend items, buffer, sends ++ [items])
  | FlushPhase.atSend _ => (FlushPhase.done, none, sends)
  | FlushPhase.done => (FlushPhase.done, buffer, sends)

/-- Two racing sendMediaGroup invocations for the same group key, plus the
shared buffer entry and the log of initiated external batched sends. -/
structure FlushSim where
  buffer : Option (List TgMessage)
  sends : List (List MediaItem)
  ph1 : FlushPhase
  ph2 : FlushPhase
deriving DecidableEq, Repr

/-- Advance the chosen invocation (true picks the first) by one task step. -/
def stepTask (first : Bool) (s : FlushSim) : FlushSim :=
  if first then
    let r := flushStep s.ph1 s.buffer s.sends
    { buffer := r.snd.fst, sends := r.snd.snd, ph1 := r.fst, ph2 := s.ph2 }
  else
    let r := flushStep s.ph2 s.buffer s.sends
    { buffer := r.snd.fst, sends := r.snd.snd, ph1 := s.ph1, ph2 := r.fst }

/-- Run an interleaving schedule: each entry picks which invocation runs to
its next suspension point. -/
def runFlushSched (sched : List Bool) (s : FlushSim) : FlushSim :=
  sched.foldl (fun s b => stepTask b s) s

/-- Claim C1 counterexample: the flush routine does not remove the
PendingGroup before use (the delete runs only after the awaited send), so
when the second invocation for the same key starts while the first is
suspended at the external send, both read the still-present buffer and the
batched send is performed twice. -/
theorem flush_overlap_double_send_cex :
    (runFlushSched [true, true, false, false, false, true]
      { buffer := some [{ photo := some ["p1"], video := none, document := none,
                          audio := none, caption := none, media_group_id := some "g1" }],
        sends := [], ph1 := FlushPhase.start, ph2 := FlushPhase.start }).sends =
      [[{ type := MediaKind.photo, media := "p1", caption := none }],
       [{ type := MediaKind.photo, media := "p1", caption := none }]] := by
  decide

/-- Claim C1 amended: the guarantee holds for strictly sequential double
invocation: when the second invocation of the flush routine begins only
after the first has completed, the external batched send is performed at
most once and the second invocation finds no usable buffer and performs no
send.  The remove-before-use step the spec describes is absent: the buffer
is deleted after the send, so an overlapped second invocation can send
again (see the counterexample). -/
theorem flush_sequential_idempotent (buf : Option (List TgMessage)) :
    (runFlushSched [true, true, true] (FlushSim.mk buf [] FlushPhase.start
      FlushPhase.start)).ph1 = FlushPhase.done ∧
    (runFlushSched [false, false, false] (runFlushSched [true, true, true]
      (FlushSim.mk buf [] FlushPhase.start FlushPhase.start))).sends =
      (runFlushSched [true, true, true] (FlushSim.mk buf [] FlushPhase.start
        FlushPhase.start)).sends ∧
    (runFlushSched [false, false, false] (runFlushSched [true, true, true]
      (FlushSim.mk buf [] FlushPhase.start FlushPhase.start))).sends.length ≤ 1 := by
  cases buf with
  | none => decide
  | some msgs =>
    cases msgs with
    | nil => decide
    | cons m rest =>
      by_cases hp : projectBatch (m :: rest) = []
      · simp [runFlushSched, stepTask, flushStep, hp]
      · simp [runFlushSched, stepTask, flushStep, hp]

/-- Insert a pending timer wakeup (wake time, sender) into a
time-ordered wakeup queue, after earlier and equal wake times. -/
def insertWake (wk : Nat × Nat) : List (Nat × Nat) → List (Nat × Nat)
  | [] => [wk]
  | w :: ws => if wk.fst < w.fst then wk :: w :: ws else w :: insertWake wk ws

/-- Event-loop simulation of concurrent applyDelay invocations under the
single-threaded cooperative model.  Each arrival (time, sender) runs the
synchronous head of applyDelay: it reads userLastSent and computes the
wait; on a zero wait it immediately records the timestamp and initiates its
send, otherwise it suspends and a wakeup is queued at arrival + wait.
A wakeup resumes the suspended invocation: only then is the timestamp
written and the send initiated.  Pending wakeups due not later than the
next arrival run first.  Returns the log of send initiations
(sender, time) in order.  Fuel bounds the recursion; two units per arrival
plus one per initial wakeup suffice. -/
def runSim (fuel delayMs : Nat) (arrivals wakes rate : List (Nat × Nat))
    (inits : List (Nat × Nat)) : List (Nat × Nat) :=
  match fuel with
  | 0 => inits
  | fuel + 1 =>
    match arrivals, wakes with
    | [], [] => inits
    | [], (tw, sw) :: ws =>
      runSim fuel delayMs [] ws (mapSet rate sw tw) (inits ++ [(sw, tw)])
    | (ta, sa) :: arest, [] =>
      let w := waitOf delayMs rate sa ta
      if w = 0 then
        runSim fuel delayMs arest [] (mapSet rate sa ta) (inits ++ [(sa, ta)])
      else
        runSim fuel delayMs arest (insertWake (ta + w, sa) []) rate inits
    | (ta, sa) :: arest, (tw, sw) :: ws =>
      if tw ≤ ta then
        runSim fuel delayMs ((ta, sa) :: arest) ws (mapSet rate sw tw) (inits ++ [(sw, tw)])
      else
        let w := waitOf delayMs rate sa ta
        if w = 0 then
          runSim fuel delayMs arest ((tw, sw) :: ws) (mapSet rate sa ta) (inits ++ [(sa, ta)])
        else
          runSim fuel delayMs arest (insertWake (ta + w, sa) ((tw, sw) :: ws)) rate inits

/-- Claim C3 counterexample: with a 500 ms interval and sender 7 last
recorded at t=1000, two events arriving at t=1100 and t=1200 both read the
old timestamp (the first suspended invocation has not yet written its own),
both compute waits ending at t=1500, and both initiate sends at t=1500:
two sends for the same sender initiated 0 ms apart, below the interval.
The per-sender spacing guarantee fails under overlapping invocations. -/
theorem applyDelay_overlap_same_instant_cex :
    runSim 10 500 [(1100, 7), (1200, 7)] [] [(7, 1000)] [] = [(7, 1500), (7, 1500)] := by
  decide

/-- Claim C3 amended: the initiation-to-initiation spacing guarantee holds
when the later applyDelay invocation for a sender begins only after the
earlier one has returned (the earlier write is visible): the two send
initiations are at least the configured interval apart.  Different senders
are never serialized against each other: a call for one sender leaves every
other sender entry untouched, and its wait depends only on the entry of
its own sender.  Under overlapping same-sender invocations the guarantee
fails (see the counterexample). -/
theorem applyDelay_sequential_spacing (delayMs : Nat) (rate : List (Nat × Nat))
    (S t1 t2 : Nat) (h1 : 0 < t1)
    (hseq : t1 + (applyDelay delayMs rate S t1).fst ≤ t2) :
    (t1 + (applyDelay delayMs rate S t1).fst) + delayMs ≤
      t2 + (applyDelay delayMs (applyDelay delayMs rate S t1).snd S t2).fst ∧
    (∀ V, V ≠ S → mapGet (applyDelay delayMs rate S t1).snd V = mapGet rate V) ∧
    (∀ rate2, mapGet rate2 S = mapGet rate S →
      (applyDelay delayMs rate2 S t1).fst = (applyDelay delayMs rate S t1).fst) := by
  refine ⟨?_, ?_, ?_⟩
  · have hget : mapGet (applyDelay delayMs rate S t1).snd S =
        some (t1 + waitOf delayMs rate S t1) := by
      simp [applyDelay, mapGet_set_self]
    have hT : t1 + waitOf delayMs rate S t1 ≠ 0 := by omega
    have hfst : (applyDelay delayMs rate S t1).fst = waitOf delayMs rate S t1 := rfl
    have hlater : t1 + waitOf delayMs rate S t1 ≤ t2 := by rw [hfst] at hseq; exact hseq
    have hw2 : waitOf delayMs (applyDelay delayMs rate S t1).snd S t2 =
        (if ((t2 : Int) - ((t1 + waitOf delayMs rate S t1 : Nat) : Int)) < (delayMs : Int)
         then ((delayMs : Int) -
            ((t2 : Int) - ((t1 + waitOf delayMs rate S t1 : Nat) : Int))).toNat
         else 0) := by
      rw [waitOf]
      simp only [hget]
      rw [if_pos hT]
    show t1 + (applyDelay delayMs rate S t1).fst + delayMs ≤
      t2 + waitOf delayMs (applyDelay delayMs rate S t1).snd S t2
    rw [hfst, hw2]
    by_cases hlt : ((t2 : Int) - ((t1 + waitOf delayMs rate S t1 : Nat) : Int)) < (delayMs : Int)
    · rw [if_pos hlt]
      omega
    · rw [if_neg hlt]
      omega
  · intro V hV
    simp [applyDelay]
    exact mapGet_set_ne rate S V _ hV
  · intro rate2 hagree
    show waitOf delayMs rate2 S t1 = waitOf delayMs rate S t1
    rw [waitOf, waitOf, hagree]

theorem applyDelay_sequential_spacing_witness :
    (1000 + (applyDelay 500 [] 1 1000).fst) + 500 ≤
      1200 + (applyDelay 500 (applyDelay 500 [] 1 1000).snd 1 1200).fst ∧
    mapGet (applyDelay 500 [] 1 1000).snd 2 = mapGet ([] : List (Nat × Nat)) 2 := by
  have h := applyDelay_sequential_spacing 500 [] 1 1000 1200 (by decide) (by decide)
  exact ⟨h.1, h.2.1 2 (by decide)⟩

/-- The flush timer duration armed by the media-group branch (app.ts lines
906-909): Math.max(SEND_DELAY_MS + 1000, 4000). -/
def flushTimerMs (delayMs : Nat) : Nat := max (delayMs + 1000) 4000

/-- One setTimeout call: the handle returned, the arming time, and the
requested duration; the timer would fire at armedAt + duration. -/
structure TimerRec where
  id : Nat
  armedAt : Nat
  duration : Nat
deriving DecidableEq, Repr

/-- The timer state of the process: a fresh-handle counter, the log of all
setTimeout calls ever made, the log of clearTimeout calls (handle, time of
the call), and the groupTimeouts map from group key to the current handle. -/
structure TimerWorld where
  nextId : Nat
  armedList : List TimerRec
  cancelled : List (Nat × Nat)
  timeouts : List (String × Nat)
deriving DecidableEq, Repr

def initTimerWorld : TimerWorld :=
  { nextId := 0, armedList := [], cancelled := [], timeouts := [] }

/-- The timer part of the media-group branch (app.ts lines 899-910): if
groupTimeouts has an entry for the key, clearTimeout it; then setTimeout a
new flush timer with duration flushTimerMs and store its handle for the
key. -/
def armGroupTimer (delayMs now : Nat) (g : String) (w : TimerWorld) : TimerWorld :=
  let cancelled :=
    match mapGet w.timeouts g with
    | some h => w.cancelled ++ [(h, now)]
    | none => w.cancelled
  { nextId := w.nextId + 1,
    armedList := w.armedList ++
      [{ id := w.nextId, armedAt := now, duration := flushTimerMs delayMs }],
    cancelled := cancelled,
    timeouts := mapSet w.timeouts g w.nextId }

/-- The timers for key g that are still live: armed, currently stored as
the handle for g, and never passed to clearTimeout. -/
def liveTimersFor (w : TimerWorld) (g : String) : List TimerRec :=
  w.armedList.filter (fun r =>
    (mapGet w.timeouts g == some r.id) && !(w.cancelled.any (fun c => c.fst == r.id)))

/-- Handle discipline invariant: every armed handle is below the fresh
counter and handles are pairwise distinct (setTimeout never reuses a live
handle). -/
def TimerWF (w : TimerWorld) : Prop :=
  (∀ r ∈ w.armedList, r.id < w.nextId) ∧
  w.armedList.Pairwise (fun a b => a.id ≠ b.id)

theorem timerWF_init : TimerWF initTimerWorld := by
  constructor
  · intro r hr
    simp [initTimerWorld] at hr
  · simp [initTimerWorld]

theorem timerWF_arm (delayMs now : Nat) (g : String) (w : TimerWorld) (h : TimerWF w) :
    TimerWF (armGroupTimer delayMs now g w) := by
  obtain ⟨hb, hp⟩ := h
  constructor
  · intro r hr
    simp only [armGroupTimer, List.mem_append, List.mem_singleton] at hr
    rcases hr with hr | hr
    · exact Nat.lt_succ_of_lt (hb r hr)
    · subst hr
      simp [armGroupTimer]
  · simp only [armGroupTimer]
    rw [List.pairwise_append]
    refine ⟨hp, List.pairwise_singleton _ _, ?_⟩
    intro a ha b hb2
    simp only [List.mem_singleton] at hb2
    subst hb2
    exact Nat.ne_of_lt (hb a ha)

/-- Arm a sequence of grouped arrivals (time, key) in order. -/
def armMany (delayMs : Nat) (arms : List (Nat × String)) (w : TimerWorld) : TimerWorld :=
  arms.foldl (fun w a => armGroupTimer delayMs a.fst a.snd w) w

theorem timerWF_armMany (delayMs : Nat) (arms : List (Nat × String)) (w : TimerWorld)
    (h : TimerWF w) : TimerWF (armMany delayMs arms w) := by
  induction arms generalizing w with
  | nil => exact h
  | cons a rest ih =>
    show TimerWF (armMany delayMs rest (armGroupTimer delayMs a.fst a.snd w))
    exact ih _ (timerWF_arm delayMs a.fst a.snd w h)

theorem filter_sameid_length_le_one (l : List TimerRec) (p : TimerRec → Bool)
    (hnd : l.Pairwise (fun a b => a.id ≠ b.id))
    (hp : ∀ a b, p a = true → p b = true → a.id = b.id) :
    (l.filter p).length ≤ 1 := by
  induction l with
  | nil => simp
  | cons a l ih =>
    rcases List.pairwise_cons.mp hnd with ⟨hhead, htail⟩
    by_cases hpa : p a = true
    · rw [List.filter_cons_of_pos hpa]
      have hnil : l.filter p = [] := by
        rw [List.filter_eq_nil_iff]
        intro b hb hpb
        exact hhead b hb (hp a b hpa hpb)
      rw [hnil]
      simp
    · rw [List.filter_cons_of_neg (by simpa using hpa)]
      exact ih htail

theorem liveTimersFor_le_one (w : TimerWorld) (g : String) (h : TimerWF w) :
    (liveTimersFor w g).length ≤ 1 := by
  apply filter_sameid_length_le_one _ _ h.2
  intro a b hpa hpb
  simp only [Bool.and_eq_true] at hpa hpb
  have ha2 : mapGet w.timeouts g = some a.id := eq_of_beq hpa.1
  have hb2 : mapGet w.timeouts g = some b.id := eq_of_beq hpb.1
  rw [ha2] at hb2
  exact Option.some.inj hb2

/-- Claim C8: at most one live flush timer ever exists per group key along
any sequence of grouped arrivals, because arming for a key first cancels
the stored prior timer; and in the two-item scenario (b arrives within the
armed duration after a) every clearTimeout happens strictly before the
cancelled timer would have fired (so the timer armed after a never fires),
only the timer armed after the most recent item remains live, and the
buffer holds both items in order. -/
theorem single_live_timer :
    (∀ (delayMs : Nat) (arms : List (Nat × String)) (g : String),
      (liveTimersFor (armMany delayMs arms initTimerWorld) g).length ≤ 1) ∧
    (∀ (delayMs ta tb : Nat) (g : String) (a b : TgMessage),
      tb < ta + flushTimerMs delayMs →
      (armGroupTimer delayMs tb g (armGroupTimer delayMs ta g initTimerWorld)).armedList =
        [TimerRec.mk 0 ta (flushTimerMs delayMs), TimerRec.mk 1 tb (flushTimerMs delayMs)] ∧
      (armGroupTimer delayMs tb g (armGroupTimer delayMs ta g initTimerWorld)).cancelled =
        [(0, tb)] ∧
      (∀ c ∈ (armGroupTimer delayMs tb g (armGroupTimer delayMs ta g
          initTimerWorld)).cancelled,
        ∃ r ∈ (armGroupTimer delayMs tb g (armGroupTimer delayMs ta g
            initTimerWorld)).armedList,
          r.id = c.fst ∧ c.snd < r.armedAt + r.duration) ∧
      liveTimersFor (armGroupTimer delayMs tb g (armGroupTimer delayMs ta g
          initTimerWorld)) g =
        [TimerRec.mk 1 tb (flushTimerMs delayMs)] ∧
      bufferGroupItem (some (bufferGroupItem none a)) b = [a, b]) := by
  constructor
  · intro delayMs arms g
    exact liveTimersFor_le_one _ g (timerWF_armMany delayMs arms initTimerWorld timerWF_init)
  · intro delayMs ta tb g a b htb
    have harm : (armGroupTimer delayMs tb g (armGroupTimer delayMs ta g
        initTimerWorld)).armedList =
        [TimerRec.mk 0 ta (flushTimerMs delayMs), TimerRec.mk 1 tb (flushTimerMs delayMs)] := by
      simp [armGroupTimer, initTimerWorld, mapGet, mapSet]
    have hcan : (armGroupTimer delayMs tb g (armGroupTimer delayMs ta g
        initTimerWorld)).cancelled = [(0, tb)] := by
      simp [armGroupTimer, initTimerWorld, mapGet, mapSet]
    refine ⟨harm, hcan, ?_, ?_, rfl⟩
    · intro c hc
      rw [hcan] at hc
      simp only [List.mem_singleton] at hc
      subst hc
      refine ⟨TimerRec.mk 0 ta (flushTimerMs delayMs), ?_, rfl, htb⟩
      rw [harm]
      simp
    · simp [liveTimersFor, armGroupTimer, initTimerWorld, mapGet, mapSet]

theorem single_live_timer_witness :
    (liveTimersFor (armMany 500 [(0, "g1"), (1000, "g1"), (1900, "g2")]
        initTimerWorld) "g1").length ≤ 1 ∧
    liveTimersFor (armGroupTimer 500 1000 "g1" (armGroupTimer 500 0 "g1"
        initTimerWorld)) "g1" = [TimerRec.mk 1 1000 (flushTimerMs 500)] := by
  constructor
  · exact single_live_timer.1 500 [(0, "g1"), (1000, "g1"), (1900, "g2")] "g1"
  · exact (single_live_timer.2 500 0 1000 "g1"
      { photo := some ["p1"], video := none, document := none, audio := none,
        caption := none, media_group_id := some "g1" }
      { photo := some ["p2"], video := none, document := none, audio := none,
        caption := none, media_group_id := some "g1" }
      (by decide)).2.2.2.1

/-- An external transport send call issued by a handler, with its target
chat, content reference and caption. -/
inductive SendCall
  | photoS (chat : Nat) (fid : String) (caption : Option String)
  | videoS (chat : Nat) (fid : String) (caption : Option String)
  | documentS (chat : Nat) (fid : String) (caption : Option String)
  | audioS (chat : Nat) (fid : String) (caption : Option String)
deriving DecidableEq, Repr

/-- The module-level mutable state the media handlers touch: the power
flag, userLastSent, mediaGroupBuffer and the timer state. -/
structure BotState where
  botEnabled : Bool
  rate : List (Nat × Nat)
  groups : List (String × List TgMessage)
  timers : TimerWorld
deriving DecidableEq, Repr

/-- Result of one handler run: the new state, the replies sent to the
sender, and the external sends attempted. -/
structure HandlerOut where
  state : BotState
  replies : List Reply
  sends : List SendCall
deriving DecidableEq, Repr

/-- The shared try/catch tail of the four single-item paths (app.ts lines
916-943 and the analogous video, document and audio blocks): applyDelay has
already updated the rate map to rate2, the send is attempted once, and a
failure is answered with the chat-not-found remediation or the generic
forwarding error carrying (e.description || "Unknown error").  The failure
is swallowed: no retry, no state rollback. -/
def singleSendResult (st : BotState) (call : SendCall) (what : String)
    (rate2 : List (Nat × Nat)) (outcome : SendOutcome) : HandlerOut :=
  match outcome with
  | SendOutcome.ok =>
    { state := { st with rate := rate2 }, replies := [], sends := [call] }
  | SendOutcome.fail desc =>
    { state := { st with rate := rate2 },
      replies := [if isChatNotFound desc then Reply.chatNotFoundHelp
                  else Reply.forwardError what (jsOrDefault desc "Unknown error")],
      sends := [call] }

/-- The media-group branch shared by the photo and video handlers (app.ts
lines 889-912): append the message to the buffer for the key and rearm the
flush timer; no delay is applied and no send happens here. -/
def groupBranch (delayMs now : Nat) (st : BotState) (gid : String) (m : TgMessage) :
    HandlerOut :=
  { state := { st with
      groups := mapSet st.groups gid (bufferGroupItem (mapGet st.groups gid) m),
      timers := armGroupTimer delayMs now gid st.timers },
    replies := [], sends := [] }

/-- The photo handler (app.ts lines 865-944).  The userId, message and
target parameters model ctx.from.id, ctx.message and the findTarget result;
falsy values (absent, or the number 0, or an empty group id string) take
the same early paths as in JavaScript. -/
def photoHandler (delayMs : Nat) (st : BotState) (userId : Option Nat)
    (msg : Option TgMessage) (target : Option Nat) (now : Nat)
    (outcome : SendOutcome) : HandlerOut :=
  match userId with
  | none => { state := st, replies := [], sends := [] }
  | some uid =>
    if uid = 0 then { state := st, replies := [], sends := [] }
    else if !st.botEnabled then { state := st, replies := [Reply.offline], sends := [] }
    else
      match msg with
      | none => { state := st, replies := [Reply.noMessage "photo"], sends := [] }
      | some m =>
        if m.photo.isNone then
          { state := st, replies := [Reply.noMessage "photo"], sends := [] }
        else
          match target with
          | none => { state := st, replies := [Reply.noTarget], sends := [] }
          | some tgt =>
            if tgt = 0 then { state := st, replies := [Reply.noTarget], sends := [] }
            else
              match m.media_group_id with
              | some gid =>
                if gid.isEmpty then
                  singleSendResult st
                    (SendCall.photoS tgt ((m.photo.getD []).getLastD "") (jsOrUndef m.caption))
                    "photo" (applyDelay delayMs st.rate uid now).snd outcome
                else groupBranch delayMs now st gid m
              | none =>
                singleSendResult st
                  (SendCall.photoS tgt ((m.photo.getD []).getLastD "") (jsOrUndef m.caption))
                  "photo" (applyDelay delayMs st.rate uid now).snd outcome

/-- The video handler (app.ts lines 947-1026), same shape as the photo
handler with the video file_id. -/
def videoHandler (delayMs : Nat) (st : BotState) (userId : Option Nat)
    (msg : Option TgMessage) (target : Option Nat) (now : Nat)
    (outcome : SendOutcome) : HandlerOut :=
  match userId with
  | none => { state := st, replies := [], sends := [] }
  | some uid =>
    if uid = 0 then { state := st, replies := [], sends := [] }
    else if !st.botEnabled then { state := st, replies := [Reply.offline], sends := [] }
    else
      match msg with
      | none => { state := st, replies := [Reply.noMessage "video"], sends := [] }
      | some m =>
        if m.video.isNone then
          { state := st, replies := [Reply.noMessage "video"], sends := [] }
        else
          match target with
          | none => { state := st, replies := [Reply.noTarget], sends := [] }
          | some tgt =>
            if tgt = 0 then { state := st, replies := [Reply.noTarget], sends := [] }
            else
              match m.media_group_id with
              | some gid =>
                if gid.isEmpty then
                  singleSendResult st
                    (SendCall.videoS tgt (m.video.getD "") (jsOrUndef m.caption))
                    "video" (applyDelay delayMs st.rate uid now).snd outcome
                else groupBranch delayMs now st gid m
              | none =>
                singleSendResult st
                  (SendCall.videoS tgt (m.video.getD "") (jsOrUndef m.caption))
                  "video" (applyDelay delayMs st.rate uid now).snd outcome

/-- The document handler (app.ts lines 1029-1080): no media-group branch,
always a single send after applyDelay. -/
def documentHandler (delayMs : Nat) (st : BotState) (userId : Option Nat)
    (msg : Option TgMessage) (target : Option Nat) (now : Nat)
    (outcome : SendOutcome) : HandlerOut :=
  match userId with
  | none => { state := st, replies := [], sends := [] }
  | some uid =>
    if uid = 0 then { state := st, replies := [], sends := [] }
    else if !st.botEnabled then { state := st, replies := [Reply.offline], sends := [] }
    else
      match msg with
      | none => { state := st, replies := [Reply.noMessage "document"], sends := [] }
      | some m =>
        if m.document.isNone then
          { state := st, replies := [Reply.noMessage "document"], sends := [] }
        else
          match target with
          | none => { state := st, replies := [Reply.noTarget], sends := [] }
          | some tgt =>
            if tgt = 0 then { state := st, replies := [Reply.noTarget], sends := [] }
            else
              singleSendResult st
                (SendCall.documentS tgt (m.document.getD "") (jsOrUndef m.caption))
                "document" (applyDelay delayMs st.rate uid now).snd outcome

/-- The audio handler (app.ts lines 1083-1134): no media-group branch,
always a single send after applyDelay. -/
def audioHandler (delayMs : Nat) (st : BotState) (userId : Option Nat)
    (msg : Option TgMessage) (target : Option Nat) (now : Nat)
    (outcome : SendOutcome) : HandlerOut :=
  match userId with
  | none => { state := st, replies := [], sends := [] }
  | some uid =>
    if uid = 0 then { state := st, replies := [], sends := [] }
    else if !st.botEnabled then { state := st, replies := [Reply.offline], sends := [] }
    else
      match msg with
      | none => { state := st, replies := [Reply.noMessage "audio"], sends := [] }
      | some m =>
        if m.audio.isNone then
          { state := st, replies := [Reply.noMessage "audio"], sends := [] }
        else
          match target with
          | none => { state := st, replies := [Reply.noTarget], sends := [] }
          | some tgt =>
            if tgt = 0 then { state := st, replies := [Reply.noTarget], sends := [] }
            else
              singleSendResult st
                (SendCall.audioS tgt (m.audio.getD "") (jsOrUndef m.caption))
                "audio" (applyDelay delayMs st.rate uid now).snd outcome

/-- Claim C9: any media event (photo, video, document or audio) processed
while the bot is disabled gets exactly the single offline notice and
changes nothing: the state (rate map, group buffers, timers, power flag) is
returned untouched and no external send is attempted. -/
theorem disabled_bot_frame (delayMs : Nat) (st : BotState) (uid : Nat)
    (msg : Option TgMessage) (target : Option Nat) (now : Nat) (outcome : SendOutcome)
    (huid : uid ≠ 0) (hoff : st.botEnabled = false) :
    photoHandler delayMs st (some uid) msg target now outcome =
      { state := st, replies := [Reply.offline], sends := [] } ∧
    videoHandler delayMs st (some uid) msg target now outcome =
      { state := st, replies := [Reply.offline], sends := [] } ∧
    documentHandler delayMs st (some uid) msg target now outcome =
      { state := st, replies := [Reply.offline], sends := [] } ∧
    audioHandler delayMs st (some uid) msg target now outcome =
      { state := st, replies := [Reply.offline], sends := [] } := by
  refine ⟨?_, ?_, ?_, ?_⟩ <;>
    simp [photoHandler, videoHandler, documentHandler, audioHandler, huid, hoff]

theorem disabled_bot_frame_witness :
    photoHandler 500 (BotState.mk false [(7, 100)] [] initTimerWorld) (some 7)
      (some { photo := some ["p1"], video := none, document := none, audio := none,
              caption := none, media_group_id := none })
      (some 9) 1000 SendOutcome.ok =
      { state := BotState.mk false [(7, 100)] [] initTimerWorld,
        replies := [Reply.offline], sends := [] } := by
  exact (disabled_bot_frame 500 (BotState.mk false [(7, 100)] [] initTimerWorld) 7
    (some { photo := some ["p1"], video := none, document := none, audio := none,
            caption := none, media_group_id := none })
    (some 9) 1000 SendOutcome.ok (by decide) rfl).1

/-- Claim C5: whenever the photo or video handler buffers a grouped media
item, the newly armed flush timer has duration
Math.max(SEND_DELAY_MS + 1000, 4000), for every configured interval. -/
theorem flush_timer_duration (delayMs now : Nat) (st : BotState) (uid tgt : Nat)
    (mp mv : TgMessage) (gp gv : String) (outcome : SendOutcome)
    (huid : uid ≠ 0) (hen : st.botEnabled = true) (htgt : tgt ≠ 0)
    (hpp : mp.photo.isNone = false) (hgp : mp.media_group_id = some gp)
    (hgpne : gp.isEmpty = false)
    (hvv : mv.video.isNone = false) (hgv : mv.media_group_id = some gv)
    (hgvne : gv.isEmpty = false) :
    (photoHandler delayMs st (some uid) (some mp) (some tgt) now outcome).state.timers.armedList =
      st.timers.armedList ++ [TimerRec.mk st.timers.nextId now (flushTimerMs delayMs)] ∧
    (videoHandler delayMs st (some uid) (some mv) (some tgt) now outcome).state.timers.armedList =
      st.timers.armedList ++ [TimerRec.mk st.timers.nextId now (flushTimerMs delayMs)] ∧
    flushTimerMs delayMs = max (delayMs + 1000) 4000 := by
  refine ⟨?_, ?_, rfl⟩
  · simp [photoHandler, groupBranch, armGroupTimer, huid, hen, htgt, hpp, hgp, hgpne]
  · simp [videoHandler, groupBranch, armGroupTimer, huid, hen, htgt, hvv, hgv, hgvne]

theorem flush_timer_duration_witness :
    (photoHandler 250 (BotState.mk true [] [] initTimerWorld) (some 7)
      (some { photo := some ["p1"], video := none, document := none, audio := none,
              caption := none, media_group_id := some "g1" })
      (some 9) 2000 SendOutcome.ok).state.timers.armedList =
      [TimerRec.mk 0 2000 4000] := by
  have h := flush_timer_duration 250 2000 (BotState.mk true [] [] initTimerWorld) 7 9
    { photo := some ["p1"], video := none, document := none, audio := none,
      caption := none, media_group_id := some "g1" }
    { photo := none, video := some "v1", document := none, audio := none,
      caption := none, media_group_id := some "g1" }
    "g1" "g1" SendOutcome.ok
    (by decide) rfl (by decide) rfl rfl (by decide) rfl rfl (by decide)
  exact h.1.trans (by decide)

/-- Claim C6: on an external send failure, during a flush of a nonempty
projected batch or during a single photo send, the sender gets exactly one
reply - the chat-not-found remediation when the error description contains
the chat not found text, otherwise the generic failure reply carrying the
available detail; exactly one send is attempted (no retry, no escalation);
a failed flush still removes its buffer entry; and the rate-limit
timestamp written by applyDelay before the send is kept, not rolled back. -/
theorem send_failure_handling (delayMs : Nat) (rate : List (Nat × Nat))
    (uid now tgt : Nat) (msgs : List TgMessage) (desc : Option String)
    (st : BotState) (m : TgMessage)
    (hb : projectBatch msgs ≠ [])
    (hen : st.botEnabled = true) (huid : uid ≠ 0) (htgt : tgt ≠ 0)
    (hph : m.photo.isNone = false) (hmg : m.media_group_id = none) :
    (sendMediaGroupRun delayMs rate uid now (some msgs) (SendOutcome.fail desc)).replies =
      [if isChatNotFound desc then Reply.chatNotFoundHelp
       else Reply.forwardError "media group" (jsOrDefault desc "Unknown error")] ∧
    (sendMediaGroupRun delayMs rate uid now (some msgs) (SendOutcome.fail desc)).sends =
      [projectBatch msgs] ∧
    (sendMediaGroupRun delayMs rate uid now (some msgs) (SendOutcome.fail desc)).buffer =
      none ∧
    (sendMediaGroupRun delayMs rate uid now (some msgs) (SendOutcome.fail desc)).rate =
      (applyDelay delayMs rate uid now).snd ∧
    (photoHandler delayMs st (some uid) (some m) (some tgt) now
        (SendOutcome.fail desc)).replies =
      [if isChatNotFound desc then Reply.chatNotFoundHelp
       else Reply.forwardError "photo" (jsOrDefault desc "Unknown error")] ∧
    (photoHandler delayMs st (some uid) (some m) (some tgt) now
        (SendOutcome.fail desc)).sends =
      [SendCall.photoS tgt ((m.photo.getD []).getLastD "") (jsOrUndef m.caption)] ∧
    (photoHandler delayMs st (some uid) (some m) (some tgt) now
        (SendOutcome.fail desc)).state.rate =
      (applyDelay delayMs st.rate uid now).snd ∧
    (photoHandler delayMs st (some uid) (some m) (some tgt) now
        (SendOutcome.fail desc)).state.groups = st.groups ∧
    (photoHandler delayMs st (some uid) (some m) (some tgt) now
        (SendOutcome.fail desc)).state.timers = st.timers := by
  have hflush : sendMediaGroupRun delayMs rate uid now (some msgs) (SendOutcome.fail desc) =
      { sends := [projectBatch msgs],
        replies := [if isChatNotFound desc then Reply.chatNotFoundHelp
                    else Reply.forwardError "media group" (jsOrDefault desc "Unknown error")],
        buffer := none,
        rate := (applyDelay delayMs rate uid now).snd } := by
    cases msgs with
    | nil => exact absurd rfl hb
    | cons m0 rest =>
      have hne : (projectBatch (m0 :: rest)).isEmpty = false := by
        cases hpb : projectBatch (m0 :: rest) with
        | nil => exact absurd hpb hb
        | cons x xs => rfl
      simp [sendMediaGroupRun, hne]
  have hsingle : photoHandler delayMs st (some uid) (some m) (some tgt) now
      (SendOutcome.fail desc) =
      singleSendResult st
        (SendCall.photoS tgt ((m.photo.getD []).getLastD "") (jsOrUndef m.caption))
        "photo" (applyDelay delayMs st.rate uid now).snd (SendOutcome.fail desc) := by
    simp [photoHandler, huid, hen, htgt, hph, hmg]
  rw [hflush, hsingle]
  exact ⟨rfl, rfl, rfl, rfl, rfl, rfl, rfl, rfl, rfl⟩

theorem send_failure_handling_witness :
    (sendMediaGroupRun 500 [] 7 1000
      (some [{ photo := some ["p1"], video := none, document := none, audio := none,
               caption := none, media_group_id := some "g1" }])
      (SendOutcome.fail (some "Bad Request: chat not found"))).replies =
      [Reply.chatNotFoundHelp] ∧
    (sendMediaGroupRun 500 [] 7 1000
      (some [{ photo := some ["p1"], video := none, document := none, audio := none,
               caption := none, media_group_id := some "g1" }])
      (SendOutcome.fail (some "Bad Request: chat not found"))).buffer = none ∧
    (photoHandler 500 (BotState.mk true [] [] initTimerWorld) (some 7)
      (some { photo := some ["p1"], video := none, document := none, audio := none,
              caption := none, media_group_id := none })
      (some 9) 1000 (SendOutcome.fail (some "some internal error"))).replies =
      [Reply.forwardError "photo" "some internal error"] := by
  have h := send_failure_handling 500 [] 7 1000 9
    [{ photo := some ["p1"], video := none, document := none, audio := none,
       caption := none, media_group_id := some "g1" }]
    (some "Bad Request: chat not found")
    (BotState.mk true [] [] initTimerWorld)
    { photo := some ["p1"], video := none, document := none, audio := none,
      caption := none, media_group_id := none }
    (by decide) rfl (by decide) (by decide) rfl rfl
  have h2 := send_failure_handling 500 [] 7 1000 9
    [{ photo := some ["p1"], video := none, document := none, audio := none,
       caption := none, media_group_id := some "g1" }]
    (some "some internal error")
    (BotState.mk true [] [] initTimerWorld)
    { photo := some ["p1"], video := none, document := none, audio := none,
      caption := none, media_group_id := none }
    (by decide) rfl (by decide) (by decide) rfl rfl
  refine ⟨h.1.trans (by decide), h.2.2.1, h2.2.2.2.2.1.trans (by decide)⟩

/-- One record of the data.json user directory (the file-backed variant in
part_001): the sender, the configured recipient, and the creation
timestamp. -/
structure UserData where
  userId : Nat
  targetId : Nat
  createdAt : String
deriving DecidableEq, Repr

/-- findTarget of the file-backed store (part_001 lines 70-74): the
targetId of the first record whose userId matches, if any. -/
def findTarget (data : List UserData) (userId : Nat) : Option Nat :=
  (data.find? (fun u => u.userId == userId)).map (fun u => u.targetId)

/-- The findIndex-and-update part of setTarget (part_001 lines 78-83):
overwrite the targetId of the first record whose userId matches; the Bool
reports whether a match was found. -/
def setTargetGo (data : List UserData) (userId targetId : Nat) :
    List UserData × Bool :=
  match data with
  | [] => ([], false)
  | u :: us =>
    if u.userId == userId then ({ u with targetId := targetId } :: us, true)
    else
      let r := setTargetGo us userId targetId
      (u :: r.fst, r.snd)

/-- setTarget of the file-backed store (part_001 lines 76-89): update the
first matching record in place, or append a fresh record with the current
ISO timestamp; the result is what saveData writes back to data.json. -/
def setTarget (data : List UserData) (userId targetId : Nat) (nowIso : String) :
    List UserData :=
  let r := setTargetGo data userId targetId
  if r.snd then r.fst
  else data ++ [{ userId := userId, targetId := targetId, createdAt := nowIso }]

/-- Claim C10: after setTarget U T on the file-backed directory, findTarget
U returns T, and findTarget for any other sender V returns exactly what it
returned before: one user setting a target never changes the mapping of
another user. -/
theorem findTarget_cons_hit (u : UserData) (l : List UserData) (x : Nat)
    (h : (u.userId == x) = true) : findTarget (u :: l) x = some u.targetId := by
  simp [findTarget, List.find?_cons, h]

theorem findTarget_cons_miss (u : UserData) (l : List UserData) (x : Nat)
    (h : (u.userId == x) = false) : findTarget (u :: l) x = findTarget l x := by
  simp [findTarget, List.find?_cons, h]

theorem setTarget_findTarget_frame (data : List UserData) (U T V : Nat)
    (nowIso : String) (hV : V ≠ U) :
    findTarget (setTarget data U T nowIso) U = some T ∧
    findTarget (setTarget data U T nowIso) V = findTarget data V := by
  induction data with
  | nil =>
    have hUV : (U == V) = false := by
      rw [beq_eq_false_iff_ne]
      exact fun he => hV he.symm
    constructor
    · simp [setTarget, setTargetGo, findTarget]
    · simp [setTarget, setTargetGo, findTarget, hUV]
  | cons u us ih =>
    by_cases hu : u.userId = U
    · have hbu : (u.userId == U) = true := beq_iff_eq.mpr hu
      have huV : (u.userId == V) = false := by
        rw [beq_eq_false_iff_ne, hu]
        exact fun he => hV he.symm
      have hset : setTarget (u :: us) U T nowIso = { u with targetId := T } :: us := by
        simp [setTarget, setTargetGo, hbu]
      constructor
      · rw [hset, findTarget_cons_hit { u with targetId := T } us U hbu]
      · rw [hset, findTarget_cons_miss { u with targetId := T } us V huV,
          findTarget_cons_miss u us V huV]
    · have hbu : (u.userId == U) = false := beq_eq_false_iff_ne.mpr hu
      have hset : setTarget (u :: us) U T nowIso = u :: setTarget us U T nowIso := by
        simp only [setTarget, setTargetGo, hbu, if_false]
        by_cases hr : (setTargetGo us U T).snd
        · simp [hr]
        · simp [hr]
      rw [hset]
      by_cases huV : u.userId = V
      · have hbuV : (u.userId == V) = true := beq_iff_eq.mpr huV
        constructor
        · rw [findTarget_cons_miss _ _ _ hbu]
          exact ih.1
        · rw [findTarget_cons_hit _ _ _ hbuV, findTarget_cons_hit _ _ _ hbuV]
      · have hbuV : (u.userId == V) = false := beq_eq_false_iff_ne.mpr huV
        constructor
        · rw [findTarget_cons_miss _ _ _ hbu]
          exact ih.1
        · rw [findTarget_cons_miss _ _ _ hbuV, findTarget_cons_miss _ _ _ hbuV]
          exact ih.2

theorem setTarget_findTarget_frame_witness :
    findTarget (setTarget
      [UserData.mk 7630384575 8310845113 "2026-01-29T05:59:12.953Z",
       UserData.mk 7656695344 7776283215 "2026-01-29T06:29:58.638Z"]
      7630384575 42 "2026-02-01T00:00:00.000Z") 7630384575 = some 42 ∧
    findTarget (setTarget
      [UserData.mk 7630384575 8310845113 "2026-01-29T05:59:12.953Z",
       UserData.mk 7656695344 7776283215 "2026-01-29T06:29:58.638Z"]
      7630384575 42 "2026-02-01T00:00:00.000Z") 7656695344 =
      findTarget
        [UserData.mk 7630384575 8310845113 "2026-01-29T05:59:12.953Z",
         UserData.mk 7656695344 7776283215 "2026-01-29T06:29:58.638Z"] 7656695344 := by
  exact setTarget_findTarget_frame
    [UserData.mk 7630384575 8310845113 "2026-01-29T05:59:12.953Z",
     UserData.mk 7656695344 7776283215 "2026-01-29T06:29:58.638Z"]
    7630384575 42 7656695344 "2026-02-01T00:00:00.000Z" (by decide)
